import Mathlib

/-!
Verification of the key-value storage layer in `crates/fuel-core/src/state.rs`.

The file shallowly embeds the Rust definitions: byte buffers (`Vec<u8>`,
`&[u8]`) become `List Nat`, column identifiers (`u32`) become `Nat` (no claim
exercises overflow), fallible operations (`DatabaseResult<T>`) become
`Except StorageError T`, and trait objects with interior mutability become
structures of functions with explicit state passing.
-/

/-- Byte sequences: `Vec<u8>` / `&[u8]` in the source. -/
abbrev Bytes := List Nat

/-- The source has `pub type ColumnId = u32`; column identifiers are opaque
unsigned integers and no claim exercises 32-bit wraparound, so `Nat`. -/
abbrev ColumnId := Nat

/-- The `Column` type imported from `crate::database`; an opaque unsigned
integer namespace identifier per the data model. -/
abbrev Column := Nat

/-- Modelled from the spec: the error type behind `crate::database::Result`
is not under `src/`; the spec describes storage failures as "I/O or
backend-internal fault surfaced as an error result", so we model a family of
distinct faults indexed by a code. -/
inductive StorageError where
  | fault (code : Nat) : StorageError
deriving DecidableEq, Repr

/-- The source's `DatabaseResult<T>` (`crate::database::Result`). -/
abbrev DatabaseResult (α : Type) := Except StorageError α

/-- `Iterator::chain` over two byte slices: yields every element of the
first iterator, then every element of the second.  `MultiKey::new` builds
its buffer by `key.0.iter().chain(key.1.iter()).copied().collect()`. -/
def chainBytes : Bytes → Bytes → Bytes
  | [], ys => ys
  | x :: xs, ys => x :: chainBytes xs ys

/-- `MultiKey` from the source, phantom type parameters erased (they carry no
runtime payload): a wrapper around the flattened byte buffer `inner`. -/
structure MultiKey where
  inner : Bytes
deriving DecidableEq, Repr

/-- `MultiKey::new(&(k1, k2))`: collect the chained iterators of the two
parts into one buffer. -/
def MultiKey.new (key : Bytes × Bytes) : MultiKey :=
  { inner := chainBytes key.1 key.2 }

/-- `impl AsRef<[u8]> for MultiKey`: expose the inner buffer as a slice. -/
def MultiKey.as_ref (key : MultiKey) : Bytes :=
  key.inner

/-- `impl From<MultiKey> for Vec<u8>`: move the inner buffer out. -/
def vecU8_from (key : MultiKey) : Bytes :=
  key.inner

/-- Three-way lexicographic comparison of byte sequences, the order a
byte-ordered backend sorts keys by. -/
def bytesCmp : Bytes → Bytes → Ordering
  | [], [] => Ordering.eq
  | [], _ :: _ => Ordering.lt
  | _ :: _, [] => Ordering.gt
  | a :: as, b :: bs =>
    if a < b then Ordering.lt
    else if b < a then Ordering.gt
    else bytesCmp as bs

/-- The spec's "ordering by (part one bytes, then part two bytes)": compare
first parts lexicographically, break ties by the second parts.  Stated from
the spec's words to compare against the order of the encoded keys. -/
def pairCmp (a b : Bytes × Bytes) : Ordering :=
  match bytesCmp a.1 b.1 with
  | Ordering.eq => bytesCmp a.2 b.2
  | o => o

/-- `IterDirection` from the source. -/
inductive IterDirection where
  | Forward
  | Reverse
deriving DecidableEq, Repr

/-- `impl Default for IterDirection { fn default() -> Self { Self::Forward } }`. -/
def IterDirection.default : IterDirection :=
  IterDirection.Forward

theorem chainBytes_eq_append (xs ys : Bytes) : chainBytes xs ys = xs ++ ys := by
  induction xs with
  | nil => rfl
  | cons x xs ih => simp [chainBytes, ih]

theorem multiKey_inner (k1 k2 : Bytes) :
    (MultiKey.new (k1, k2)).inner = k1 ++ k2 := by
  simp [MultiKey.new, chainBytes_eq_append]

theorem bytesCmp_append_left (a1 b1 a2 b2 : Bytes) (h : a1.length = b1.length) :
    bytesCmp (a1 ++ a2) (b1 ++ b2) = pairCmp (a1, a2) (b1, b2) := by
  induction a1 generalizing b1 with
  | nil =>
    cases b1 with
    | nil => simp [pairCmp, bytesCmp]
    | cons y ys => simp at h
  | cons x xs ih =>
    cases b1 with
    | nil => simp at h
    | cons y ys =>
      simp only [List.length_cons, Nat.succ.injEq] at h
      by_cases hxy : x < y
      · simp [pairCmp, bytesCmp, hxy]
      · by_cases hyx : y < x
        · simp [pairCmp, bytesCmp, hxy, hyx]
        · have := ih ys h
          simp only [List.cons_append, bytesCmp, hxy, hyx, if_false, pairCmp] at this ⊢
          exact this

/-- C3: for every pair of byte sequences, `MultiKey::new(&(k1, k2))` produces
exactly the bytes of `k1` followed by the bytes of `k2`, with no separator
and no length prefix. -/
theorem multiKey_new_is_concat (k1 k2 : Bytes) :
    (MultiKey.new (k1, k2)).inner = k1 ++ k2 :=
  multiKey_inner k1 k2

/-- C4 counterexample: with first parts of different lengths the order of the
encoded keys disagrees with ordering by (part one, then part two).  At
a = ([0], [2]) and b = ([0, 1], []) the pair order says a comes first but the
encoded keys sort b = [0, 1] before a = [0, 2]. -/
theorem multiKey_order_mismatch :
    pairCmp ([0], [2]) ([0, 1], []) = Ordering.lt ∧
      bytesCmp (MultiKey.new ([0], [2])).inner (MultiKey.new ([0, 1], [])).inner =
        Ordering.gt := by
  constructor
  · rfl
  · rfl

/-- C4 (amended): when the first parts have equal byte length, the
lexicographic order of the encoded composite keys equals the lexicographic
order of the pairs (first part bytes, then second part bytes). -/
theorem multiKey_order_of_length_eq (a1 a2 b1 b2 : Bytes)
    (h : a1.length = b1.length) :
    bytesCmp (MultiKey.new (a1, a2)).inner (MultiKey.new (b1, b2)).inner =
      pairCmp (a1, a2) (b1, b2) := by
  rw [multiKey_inner, multiKey_inner]
  exact bytesCmp_append_left a1 b1 a2 b2 h

theorem multiKey_order_of_length_eq_witness :
    bytesCmp (MultiKey.new ([1], [5])).inner (MultiKey.new ([2], [3])).inner =
      pairCmp ([1], [5]) ([2], [3]) :=
  multiKey_order_of_length_eq [1] [5] [2] [3] rfl

/-- C5: restricted to first parts of one fixed width the composite-key
encoding is injective, and without that restriction it is not: ([0], [1]) and
([0, 1], []) are distinct pairs with equal encodings. -/
theorem multiKey_injective_iff_fixed_width :
    (∀ (w : Nat) (a1 a2 b1 b2 : Bytes), a1.length = w → b1.length = w →
        MultiKey.new (a1, a2) = MultiKey.new (b1, b2) → a1 = b1 ∧ a2 = b2) ∧
      (∃ p q : Bytes × Bytes, p ≠ q ∧ MultiKey.new p = MultiKey.new q) := by
  constructor
  · intro w a1 a2 b1 b2 h1 h2 henc
    have hinner : a1 ++ a2 = b1 ++ b2 := by
      have := congrArg MultiKey.inner henc
      rwa [multiKey_inner, multiKey_inner] at this
    exact List.append_inj hinner (h1.trans h2.symm)
  · exact ⟨([0], [1]), ([0, 1], []), by decide, by decide⟩

theorem multiKey_injective_iff_fixed_width_witness :
    ([3] : Bytes) = [3] ∧ ([4] : Bytes) = [4] :=
  multiKey_injective_iff_fixed_width.1 1 [3] [4] [3] [4] rfl rfl rfl

/-- C8: the default value of `IterDirection` is `Forward`, and `Forward` and
`Reverse` are its only values. -/
theorem iterDirection_default_and_cases :
    IterDirection.default = IterDirection.Forward ∧
      ∀ d : IterDirection, d = IterDirection.Forward ∨ d = IterDirection.Reverse := by
  refine ⟨rfl, ?_⟩
  intro d
  cases d
  · exact Or.inl rfl
  · exact Or.inr rfl

/-- C10: the two ways of extracting bytes from a `MultiKey` agree
(`Vec<u8>::from` and `as_ref` return the same bytes) and expose the full
encoding: the length is the sum of the part lengths. -/
theorem multiKey_views_agree (p : Bytes × Bytes) :
    vecU8_from (MultiKey.new p) = (MultiKey.new p).as_ref ∧
      ((MultiKey.new p).as_ref).length = p.1.length + p.2.length := by
  refine ⟨rfl, ?_⟩
  show (MultiKey.new p).inner.length = p.1.length + p.2.length
  rw [show MultiKey.new p = MultiKey.new (p.1, p.2) from rfl, multiKey_inner]
  simp

/-- `WriteOperation` from the source: `Insert(Vec<u8>, Column, Vec<u8>)` or
`Remove(Vec<u8>, Column)`. -/
inductive WriteOperation where
  | Insert (key : Bytes) (column : Column) (value : Bytes)
  | Remove (key : Bytes) (column : Column)
deriving DecidableEq, Repr

/-- The `KeyValueStore` capability interface over an explicit backend state
`σ`: the Rust methods take `&self` and mutate interior state, so `put` and
`delete` return both the `DatabaseResult` and the state the call left behind
(a failing call still leaves some state). -/
structure KVOps (σ : Type) where
  get : σ → Bytes → Column → DatabaseResult (Option Bytes)
  put : σ → Bytes → Column → Bytes → DatabaseResult (Option Bytes) × σ
  delete : σ → Bytes → Column → DatabaseResult (Option Bytes) × σ

/-- The default body of `BatchOperations::batch_write`: loop over the
entries, apply `put` for `Insert` and `delete` for `Remove`, bind each call's
result to `_` (discarding any per-entry error), and finally return `Ok(())`. -/
def default_batch_write (ops : KVOps σ) : List WriteOperation → σ → DatabaseResult Unit × σ
  | [], s => (Except.ok (), s)
  | WriteOperation.Insert key column value :: rest, s =>
    default_batch_write ops rest (ops.put s key column value).2
  | WriteOperation.Remove key column :: rest, s =>
    default_batch_write ops rest (ops.delete s key column).2

/-- One step of sequential application: `Insert(key, column, value)` performs
`put(key, column, value)` and `Remove(key, column)` performs
`delete(key, column)`. -/
def applyOne (ops : KVOps σ) (s : σ) : WriteOperation → σ
  | WriteOperation.Insert key column value => (ops.put s key column value).2
  | WriteOperation.Remove key column => (ops.delete s key column).2

/-- Sequential left-to-right application of a list of write operations. -/
def seqApply (ops : KVOps σ) (entries : List WriteOperation) (s : σ) : σ :=
  entries.foldl (applyOne ops) s

/-- A backend on which every `put` and every `delete` fails with a storage
fault and leaves the state unchanged; used to show that the default
`batch_write` swallows per-entry failures. -/
def failingOps : KVOps Unit where
  get := fun _ _ _ => Except.error (StorageError.fault 0)
  put := fun s _ _ _ => (Except.error (StorageError.fault 0), s)
  delete := fun s _ _ => (Except.error (StorageError.fault 0), s)

/-- Instrumentation wrapper that counts every `put` and `delete` call made
against the wrapped operations. -/
def countingOps (ops : KVOps σ) : KVOps (σ × Nat) where
  get := fun p key column => ops.get p.1 key column
  put := fun p key column value =>
    ((ops.put p.1 key column value).1, ((ops.put p.1 key column value).2, p.2 + 1))
  delete := fun p key column =>
    ((ops.delete p.1 key column).1, ((ops.delete p.1 key column).2, p.2 + 1))

/-- C2: the default `batch_write` returns `Ok(())` on every backend, every
state and every entry sequence — in particular on a backend whose individual
`put` and `delete` calls all fail, so per-entry failures are never propagated
to the caller. -/
theorem default_batch_write_ok :
    (∀ (σ : Type) (ops : KVOps σ) (entries : List WriteOperation) (s : σ),
        (default_batch_write ops entries s).1 = Except.ok ()) ∧
      ∀ entries : List WriteOperation,
        (default_batch_write failingOps entries ()).1 = Except.ok () := by
  have h : ∀ (σ : Type) (ops : KVOps σ) (entries : List WriteOperation) (s : σ),
      (default_batch_write ops entries s).1 = Except.ok () := by
    intro σ ops entries
    induction entries with
    | nil => intro s; rfl
    | cons e rest ih =>
      intro s
      cases e with
      | Insert key column value => exact ih ((ops.put s key column value).2)
      | Remove key column => exact ih ((ops.delete s key column).2)
  exact ⟨h, fun entries => h Unit failingOps entries ()⟩

/-- C6: for every entry sequence the default `batch_write` is observably
equal to the sequential left-to-right application of the entries, `Insert`
performing `put` and `Remove` performing `delete`, in list order. -/
theorem default_batch_write_eq_seqApply (σ : Type) (ops : KVOps σ)
    (entries : List WriteOperation) (s : σ) :
    default_batch_write ops entries s = (Except.ok (), seqApply ops entries s) := by
  induction entries generalizing s with
  | nil => rfl
  | cons e rest ih =>
    cases e with
    | Insert key column value =>
      simp [default_batch_write, seqApply, List.foldl, applyOne, ih]
    | Remove key column =>
      simp [default_batch_write, seqApply, List.foldl, applyOne, ih]

/-- C9: the default `batch_write` on the empty sequence returns `Ok(())` and
leaves the state unchanged (so every `get` answers as before), and the call
counter of the instrumented backend stays at zero: no `put` or `delete` is
invoked. -/
theorem default_batch_write_nil (σ : Type) (ops : KVOps σ) (s : σ) :
    default_batch_write ops [] s = (Except.ok (), s) ∧
      (∀ (key : Bytes) (column : Column),
        ops.get (default_batch_write ops [] s).2 key column = ops.get s key column) ∧
      (default_batch_write (countingOps ops) [] (s, 0)).2.2 = 0 :=
  ⟨rfl, fun _ _ => rfl, rfl⟩

/-- `TransactionError` from the source: a single payload-free variant
`Aborted`.  The type has no field, so no underlying failure can travel
through it. -/
inductive TransactionError where
  | Aborted
deriving DecidableEq, Repr

/-- `TransactionResult<T>` from the source. -/
abbrev TransactionResult (T : Type) := Except TransactionError T

/-- A backend satisfying `TransactableStorage`: the capability interface plus
a `batch_write`, which a backend may override (the seam the transaction
mechanism flushes through); `default_batch_write` is the baseline body. -/
structure Store (σ : Type) where
  ops : KVOps σ
  batch_write : List WriteOperation → σ → DatabaseResult Unit × σ

/-- A backend that takes the baseline `batch_write` unchanged. -/
def Store.ofOps (ops : KVOps σ) : Store σ :=
  { ops := ops, batch_write := default_batch_write ops }

/-- Modelled from the spec: the overlay view (`MemoryTransactionView`, under
`state/in_memory`, not under `src/`) "buffers WriteOperations against a base
state snapshot". -/
structure TxView (σ : Type) where
  base : σ
  buffer : List WriteOperation

/-- Modelled from the spec: a `put` against the overlay buffers an `Insert`;
nothing reaches the backend until commit. -/
def TxView.put (v : TxView σ) (key : Bytes) (column : Column) (value : Bytes) :
    TxView σ :=
  { v with buffer := v.buffer ++ [WriteOperation.Insert key column value] }

/-- Modelled from the spec: a `delete` against the overlay buffers a
`Remove`. -/
def TxView.delete (v : TxView σ) (key : Bytes) (column : Column) : TxView σ :=
  { v with buffer := v.buffer ++ [WriteOperation.Remove key column] }

/-- Modelled from the spec: `run_transaction` (the `Transaction` impl lives
under `state/in_memory`, not under `src/`).  The unit of work runs once
against a fresh overlay view; on success the buffered writes flush into the
backend through the batch layer and the result is returned; on a flush
failure the transaction aborts (the `TransactionError` type can only report
the bare `Aborted` marker) and the backend keeps its pre-transaction state;
on failure of the unit of work the buffer is discarded, the backend is
untouched and the error is returned. -/
def run_transaction (st : Store σ) (s : σ)
    (unit_of_work : TxView σ → TxView σ × TransactionResult R) :
    TransactionResult R × σ :=
  let v := (unit_of_work { base := s, buffer := [] }).1
  match (unit_of_work { base := s, buffer := [] }).2 with
  | Except.error e => (Except.error e, s)
  | Except.ok r =>
    match (st.batch_write v.buffer s).1 with
    | Except.ok _ => (Except.ok r, (st.batch_write v.buffer s).2)
    | Except.error _ => (Except.error TransactionError.Aborted, s)

/-- Modelled from the spec: association-list state of the "always-available
in-memory engine" (not under `src/`), keyed by column then key.  Used only to
instantiate witnesses. -/
abbrev MemState := List ((Column × Bytes) × Bytes)

/-- Lookup in the in-memory state, first binding wins. -/
def memLookup : MemState → Column → Bytes → Option Bytes
  | [], _, _ => none
  | ((c0, k0), v0) :: rest, c, k =>
    if c0 = c ∧ k0 = k then some v0 else memLookup rest c k

/-- Remove a binding from the in-memory state. -/
def memErase : MemState → Column → Bytes → MemState
  | [], _, _ => []
  | ((c0, k0), v0) :: rest, c, k =>
    if c0 = c ∧ k0 = k then memErase rest c k
    else ((c0, k0), v0) :: memErase rest c k

/-- Modelled from the spec: the in-memory engine's capability operations —
`get` returns the stored value or none, `put` upserts returning the prior
value, `delete` removes returning the removed value; none of them fail. -/
def memOps : KVOps MemState where
  get := fun s key column => Except.ok (memLookup s column key)
  put := fun s key column value =>
    (Except.ok (memLookup s column key), ((column, key), value) :: memErase s column key)
  delete := fun s key column =>
    (Except.ok (memLookup s column key), memErase s column key)

/-- A backend whose (overridden) `batch_write` always fails with the given
fault code and leaves the state unchanged; used to exercise the flush-failure
path of `run_transaction`. -/
def failFlushStore (code : Nat) : Store MemState :=
  { ops := memOps,
    batch_write := fun _ s => (Except.error (StorageError.fault code), s) }

/-- C1: if the key is absent from the backend before the transaction and the
unit of work puts the key and then returns failure, every buffered write is
discarded: after `run_transaction` a backend `get` of that key still returns
absent. -/
theorem run_transaction_abort_discards (σ : Type) (st : Store σ) (s : σ)
    (key : Bytes) (column : Column) (value : Bytes)
    (habs : st.ops.get s key column = Except.ok none) :
    st.ops.get
        (run_transaction st s
          (fun v => (v.put key column value,
            (Except.error TransactionError.Aborted : TransactionResult Unit)))).2
        key column = Except.ok none := by
  simpa [run_transaction] using habs

theorem run_transaction_abort_discards_witness :
    (Store.ofOps memOps).ops.get
        (run_transaction (Store.ofOps memOps) []
          (fun v => (v.put [97] 0 [1],
            (Except.error TransactionError.Aborted : TransactionResult Unit)))).2
        [97] 0 = Except.ok none :=
  run_transaction_abort_discards MemState (Store.ofOps memOps) [] [97] 0 [1] rfl

/-- C7 counterexample: the transaction error reported to the caller does not
include the underlying flush failure.  Two runs whose flushes fail with
distinct storage faults (codes 7 and 8) return the very same value, the bare
marker `Err(Aborted)` — `TransactionError` has no payload to carry the flush
error in. -/
theorem run_transaction_flush_error_not_carried :
    (run_transaction (failFlushStore 7) []
        (fun v => (v.put [97] 0 [1], Except.ok 0))).1 =
      Except.error TransactionError.Aborted ∧
    (run_transaction (failFlushStore 8) []
        (fun v => (v.put [97] 0 [1], Except.ok 0))).1 =
      (run_transaction (failFlushStore 7) []
        (fun v => (v.put [97] 0 [1], Except.ok 0))).1 ∧
    StorageError.fault 7 ≠ StorageError.fault 8 := by
  refine ⟨rfl, rfl, ?_⟩
  decide

/-- C7 (amended): when the unit of work succeeds but the flush of the
buffered writes fails, `run_transaction` returns `Err(Aborted)` — the bare
marker only, since `TransactionError` has no payload that could carry the
flush error. -/
theorem run_transaction_flush_failure_aborts (σ R : Type) (st : Store σ) (s : σ)
    (unit_of_work : TxView σ → TxView σ × TransactionResult R) (r : R)
    (e : StorageError)
    (hok : (unit_of_work { base := s, buffer := [] }).2 = Except.ok r)
    (hflush :
      (st.batch_write (unit_of_work { base := s, buffer := [] }).1.buffer s).1 =
        Except.error e) :
    (run_transaction st s unit_of_work).1 = Except.error TransactionError.Aborted := by
  simp [run_transaction, hok, hflush]

theorem run_transaction_flush_failure_aborts_witness :
    (run_transaction (failFlushStore 7) []
        (fun v => (v.put [98] 0 [2], (Except.ok 0 : TransactionResult Nat)))).1 =
      Except.error TransactionError.Aborted :=
  run_transaction_flush_failure_aborts MemState Nat (failFlushStore 7) []
    (fun v => (v.put [98] 0 [2], Except.ok 0)) 0 (StorageError.fault 7) rfl rfl
